import Mathlib

/-!
A verification development for the Mystery Gift injector's binary-format
core (`mysterygift.cpp`, `gbaromreader.cpp`, `src/core/savefile.cpp`).

Modelling conventions:
* bytes are `Nat` values (in-range values are `< 256`, as produced by
  `uint8_t` in the C++ code);
* a `QByteArray` that is only read through a `const uint8_t*` pointer is
  modelled as a function `Nat → Nat` (the pointer) together with an
  explicit size where the code consults `size()`;
* a `QByteArray` that is sliced and compared as a value is modelled as a
  `List Nat`;
* `uint32_t` arithmetic is `Nat` arithmetic with an explicit `% 2 ^ 32`
  exactly where the C++ computation can wrap;
* C++ code paths that perform an out-of-bounds element access (undefined
  behaviour) are modelled as `Option.none`.
-/

set_option maxRecDepth 10000

namespace MGI

/-! ## Generic bit-manipulation helpers -/

/-- Splitting a disjoint bitwise-or into an addition: when `a < 2 ^ k`,
`a ||| (b <<< k)` is exactly `a + b * 2 ^ k`. -/
theorem lor_shiftLeft_eq_add {k a b : Nat} (ha : a < 2 ^ k) :
    a ||| (b <<< k) = a + b * 2 ^ k := by
  induction k generalizing a b with
  | zero =>
    interval_cases a
    simp [Nat.shiftLeft_eq]
  | succ k ih =>
    have hya : (b <<< (k + 1)) % 2 = 0 := by
      rw [Nat.shiftLeft_eq, Nat.pow_succ, ← Nat.mul_assoc]
      exact Nat.mul_mod_left _ 2
    have hmod : (a ||| b <<< (k + 1)) % 2 = a % 2 := by
      rcases Nat.mod_two_eq_zero_or_one a with h | h
      · rcases Nat.mod_two_eq_zero_or_one (a ||| b <<< (k + 1)) with h2 | h2
        · omega
        · rcases (Nat.or_mod_two_eq_one).1 h2 with h3 | h3 <;> omega
      · have : (a ||| b <<< (k + 1)) % 2 = 1 := (Nat.or_mod_two_eq_one).2 (Or.inl h)
        omega
    have hdiv : (a ||| b <<< (k + 1)) / 2 = (a / 2) ||| (b <<< k) := by
      rw [Nat.or_div_two]
      congr 1
      rw [Nat.shiftLeft_eq, Nat.shiftLeft_eq, Nat.pow_succ, ← Nat.mul_assoc]
      exact Nat.mul_div_cancel _ (by norm_num)
    have ha2 : a / 2 < 2 ^ k := by
      have := Nat.pow_succ 2 k
      omega
    have hsum := Nat.div_add_mod (a ||| b <<< (k + 1)) 2
    rw [hdiv, hmod, ih ha2] at hsum
    have hp : b * 2 ^ (k + 1) = 2 * (b * 2 ^ k) := by
      rw [Nat.pow_succ]; ring
    omega

/-- Recombining the two bytes of a little-endian 16-bit store. -/
theorem byte_recombine_16 {c : Nat} (hc : c < 65536) :
    (c &&& 0xFF) ||| (((c >>> 8) &&& 0xFF) <<< 8) = c := by
  have h1 : c &&& 0xFF = c % 256 := Nat.and_pow_two_sub_one_eq_mod c 8
  have h2 : (c >>> 8) &&& 0xFF = (c / 256) % 256 := by
    rw [Nat.shiftRight_eq_div_pow]
    exact Nat.and_pow_two_sub_one_eq_mod _ 8
  have h3 := @lor_shiftLeft_eq_add 8 (c % 256) (c / 256 % 256) (by omega)
  rw [h1, h2, h3]
  omega

/-! ## Pointer-style buffer updates

`updateByte` models a single `buf[i] = v` store through a `uint8_t*`;
`writeList` models `memcpy(buf + off, src, src.length)`; `writeConst`
models `memset(buf + off, v, n)`. -/

def updateByte (f : Nat → Nat) (i v : Nat) : Nat → Nat :=
  fun j => if j = i then v else f j

def writeList (f : Nat → Nat) (off : Nat) : List Nat → Nat → Nat
  | [] => f
  | v :: rest => writeList (updateByte f off v) (off + 1) rest

def writeConst (f : Nat → Nat) (off : Nat) (v : Nat) : Nat → Nat → Nat
  | 0 => f
  | n + 1 => writeConst (updateByte f off v) (off + 1) v n

theorem updateByte_ne {f : Nat → Nat} {i v j : Nat} (h : j ≠ i) :
    updateByte f i v j = f j := by
  simp [updateByte, h]

theorem updateByte_eq (f : Nat → Nat) (i v : Nat) :
    updateByte f i v i = v := by
  simp [updateByte]

theorem writeList_ne {l : List Nat} {f : Nat → Nat} {off j : Nat}
    (h : j < off ∨ off + l.length ≤ j) : writeList f off l j = f j := by
  induction l generalizing f off with
  | nil => rfl
  | cons v rest ih =>
    simp only [writeList]
    rw [ih (by simp at h ⊢; omega)]
    exact updateByte_ne (by simp at h; omega)

theorem writeConst_ne {n : Nat} {f : Nat → Nat} {off v j : Nat}
    (h : j < off ∨ off + n ≤ j) : writeConst f off v n j = f j := by
  induction n generalizing f off with
  | zero => rfl
  | succ n ih =>
    simp only [writeConst]
    rw [ih (by omega)]
    exact updateByte_ne (by omega)

theorem writeList_get {l : List Nat} {f : Nat → Nat} {off j : Nat}
    (h1 : off ≤ j) (h2 : j < off + l.length) :
    writeList f off l j = l.getD (j - off) 0 := by
  induction l generalizing f off with
  | nil => simp at h2; omega
  | cons v rest ih =>
    simp only [writeList]
    rcases Nat.eq_or_lt_of_le h1 with rfl | hlt
    · rw [writeList_ne (Or.inl (by omega)), updateByte_eq]
      simp
    · rw [ih (by omega) (by simp at h2 ⊢; omega)]
      have : j - off = (j - (off + 1)) + 1 := by omega
      simp [this]

/-! ## GiftCodec (`mysterygift.cpp`)

The Gen 3 character table `GEN3_TO_UNICODE` from `mysterygift.cpp` lines
8-57, as Unicode code points (`QChar(' ') = 32`, `QChar('L') = 76`, ...).
A 0 entry is `QChar(0x0000)`, i.e. "no printable mapping". -/

def GEN3_TO_UNICODE : List Nat := [
  -- 0x00-0x0F
  32, 0xC0, 0xC1, 0xC2, 0xC7, 0xC8, 0xC9, 0xCA,
  0xCB, 0xCC, 32, 0xCE, 0xCF, 0xD2, 0xD3, 0xD4,
  -- 0x10-0x1F
  0x152, 0xD9, 0xDA, 0xDB, 0xD1, 0xDF, 0xE0, 0xE1,
  0, 0xE7, 0xE8, 0xE9, 0xEA, 0xEB, 0xEC, 0,
  -- 0x20-0x2F
  0xEE, 0xEF, 0xF2, 0xF3, 0xF4, 0x153, 0xF9, 0xFA,
  0xFB, 0xF1, 0xBA, 0xAA, 0x1D49, 0x26, 0x2B, 0,
  -- 0x30-0x3F ('L' = 76, 'v' = 118, '=' = 0x3D, ';' = 0x3B)
  0, 76, 118, 0x3D, 0x3B, 0, 0, 0,
  0, 0, 0, 0, 0, 0, 0, 0,
  -- 0x40-0x4F ('P' = 80, 'K' = 75, 'M' = 77, 'N' = 78, '%' '(' ')')
  0, 0xBF, 0xA1, 80, 75, 77, 78, 0,
  0, 0, 0, 0xCD, 0x25, 0x28, 0x29, 0,
  -- 0x50-0x5F
  0, 0xE2, 0, 0xED, 0, 0, 0, 0,
  0, 0, 0x2191, 0x2193, 0x2190, 0x2192, 0, 0,
  -- 0x60-0x6F ('*' = 42, '<' = 60, '>' = 62)
  42, 42, 42, 42, 0x1D49, 60, 62, 0,
  0, 0, 0, 0, 0, 0, 0, 0,
  -- 0x70-0x7F
  0, 0, 0, 0, 0, 0, 0, 0,
  0, 0x2191, 0x2193, 0x2190, 0x2192, 42, 42, 42,
  -- 0x80-0x8F
  42, 42, 42, 42, 0x1D49, 60, 62, 0,
  0, 0, 0, 0, 0, 0, 0, 0,
  -- 0x90-0x9F
  0, 0, 0, 0, 0, 0, 0, 0,
  0, 0, 0, 0, 0, 0, 0, 0,
  -- 0xA0-0xAF (digits '0'-'9' = 48-57, '!' '?' '.' '-')
  0, 48, 49, 50, 51, 52, 53, 54,
  55, 56, 57, 33, 63, 46, 45, 0x30FB,
  -- 0xB0-0xBF (',' = 44, '/' = 47, 'A'-'E' = 65-69)
  0x2025, 0x201C, 0x201D, 0x2018, 0x2019, 0x2642, 0x2640, 32,
  44, 0xD7, 47, 65, 66, 67, 68, 69,
  -- 0xC0-0xCF ('F'-'U' = 70-85)
  70, 71, 72, 73, 74, 75, 76, 77,
  78, 79, 80, 81, 82, 83, 84, 85,
  -- 0xD0-0xDF ('V'-'Z' = 86-90, 'a'-'k' = 97-107)
  86, 87, 88, 89, 90, 97, 98, 99,
  100, 101, 102, 103, 104, 105, 106, 107,
  -- 0xE0-0xEF ('l'-'z' = 108-122)
  108, 109, 110, 111, 112, 113, 114, 115,
  116, 117, 118, 119, 120, 121, 122, 0x25BA,
  -- 0xF0-0xFF (':' = 58, umlauts)
  58, 0xC4, 0xD6, 0xDC, 0xE4, 0xF6, 0xFC, 0,
  0, 0, 0, 0, 0, 0, 0, 0]

/-- `GEN3_TO_UNICODE[byte]` (0 when the byte has no printable mapping). -/
def gen3ToUnicode (b : Nat) : Nat := GEN3_TO_UNICODE.getD b 0

/-- `MysteryGift::decodeText` body (lines 165-194): the loop over the first
`maxLength` bytes, producing Unicode code points. `0xFF` terminates; a byte
with a table entry decodes through the table; `0x00`/`0xA0`, `0xFE` and
`0xFA`-`0xFD` become a plain space (32); anything else is skipped. -/
def decodeTextAux : List Nat → List Nat
  | [] => []
  | b :: rest =>
    if b = 0xFF then []
    else if gen3ToUnicode b ≠ 0 then gen3ToUnicode b :: decodeTextAux rest
    else if b = 0x00 ∨ b = 0xA0 then 32 :: decodeTextAux rest
    else if b = 0xFE then 32 :: decodeTextAux rest
    else if b = 0xFA ∨ b = 0xFB ∨ b = 0xFC ∨ b = 0xFD then 32 :: decodeTextAux rest
    else decodeTextAux rest

/-- `MysteryGift::decodeText(data, maxLength)`; `data` is the buffer the
`const uint8_t*` argument points at. -/
def decodeText (data : List Nat) (maxLength : Nat) : List Nat :=
  decodeTextAux (data.take maxLength)

/-- `unicodeToGen3` (lines 197-241): priority-ordered reverse mapping.
Digits, uppercase and lowercase contiguous ranges first, then the common
punctuation, then a first-match scan of the full table, else `0x00`. -/
def unicodeToGen3 (u : Nat) : Nat :=
  if 48 ≤ u ∧ u ≤ 57 then 0xA1 + (u - 48)
  else if 65 ≤ u ∧ u ≤ 90 then 0xBB + (u - 65)
  else if 97 ≤ u ∧ u ≤ 122 then 0xD5 + (u - 97)
  else if u = 33 then 0xAB
  else if u = 63 then 0xAC
  else if u = 46 then 0xAD
  else if u = 45 then 0xAE
  else if u = 44 then 0xB8
  else if u = 47 then 0xBA
  else if u = 58 then 0xF0
  else if u = 32 then 0x00
  else match GEN3_TO_UNICODE.findIdx? (fun c => c = u) with
       | some i => i
       | none => 0x00

/-- `MysteryGift::encodeText(dest, text, maxLength)` (lines 243-262):
the `maxLength` bytes written at `dest` — zero-filled, then the first
`min(text.length, maxLength)` characters mapped through `unicodeToGen3`. -/
def encodeText (text : List Nat) (maxLength : Nat) : List Nat :=
  (text.take maxLength).map unicodeToGen3
    ++ List.replicate (maxLength - text.length) 0

/-- One step of the `MysteryGift::calculateCRC16` loop (lines 154-159). -/
def crc16Step (table : List Nat) (crc byte : Nat) : Nat :=
  let tableIndex := (crc ^^^ byte) &&& 0xFF
  let tableValue := table.getD (tableIndex * 2) 0
    ||| (table.getD (tableIndex * 2 + 1) 0 <<< 8)
  tableValue ^^^ (crc >>> 8)

/-- `MysteryGift::calculateCRC16(data, crcTable)` (lines 142-163). Returns 0
for a table whose size is not 512. The final `~crc & 0xFFFF` on a
`uint16_t` value equals `crc ^^^ 0xFFFF` (the table entries are 16-bit, so
the running value stays below `2 ^ 16` for byte-valued tables). -/
def calculateCRC16 (data table : List Nat) : Nat :=
  if table.length ≠ 512 then 0
  else (data.foldl (crc16Step table) 0x1121) ^^^ 0xFFFF

/-- `WonderCardData` (mysterygift.h lines 95-118); text fields are lists of
Unicode code points (`QString`). -/
structure WonderCardData where
  eventId : Nat
  icon : Nat
  count : Nat
  typeColorResend : Nat
  stampMax : Nat
  title : List Nat
  subtitle : List Nat
  contentLine1 : List Nat
  contentLine2 : List Nat
  contentLine3 : List Nat
  contentLine4 : List Nat
  warningLine1 : List Nat
  warningLine2 : List Nat
deriving DecidableEq, Repr

/-- `WonderCardData::isEmpty` (mysterygift.h line 117). -/
def WonderCardData.isEmpty (d : WonderCardData) : Bool :=
  d.eventId == 0 && d.icon == 0

/-- The record returned by `parseWonderCard` when the payload is under 332
bytes (lines 63-71): numeric fields zeroed, `QString` fields default. -/
def emptyWonderCard : WonderCardData :=
  ⟨0, 0, 0, 0, 0, [], [], [], [], [], [], [], []⟩

/-- `MysteryGift::parseWonderCard(payload)` (lines 59-107). Inputs under
332 bytes give the empty record; a 336-byte input is read from byte 4 on
(skipping the CRC+padding header); field offsets from `WonderCardOffsets`.
Pointer arithmetic `bytes + off` is `List.drop off`. -/
def parseWonderCard (payload : List Nat) : WonderCardData :=
  if payload.length < 332 then emptyWonderCard
  else
    let bytes := if payload.length = 336 then payload.drop 4 else payload
    let rd := fun i => bytes.getD i 0
    { eventId := rd 0 ||| (rd 1 <<< 8)
      icon := rd 2 ||| (rd 3 <<< 8)
      count := rd 4 ||| (rd 5 <<< 8) ||| (rd 6 <<< 16) ||| (rd 7 <<< 24)
      typeColorResend := rd 8
      stampMax := rd 9
      title := decodeText (bytes.drop 0x0A) 40
      subtitle := decodeText (bytes.drop 0x32) 40
      contentLine1 := decodeText (bytes.drop 0x5A) 40
      contentLine2 := decodeText (bytes.drop 0x82) 40
      contentLine3 := decodeText (bytes.drop 0xAA) 40
      contentLine4 := decodeText (bytes.drop 0xD2) 40
      warningLine1 := decodeText (bytes.drop 0xFA) 40
      warningLine2 := decodeText (bytes.drop 0x122) 40 }

/-- `MysteryGift::encodeWonderCard(data)` (lines 109-140): a 332-byte
zero-initialised payload with the numeric fields written little-endian at
offsets 0x00/0x02/0x04/0x08/0x09 and the eight 40-byte text fields at
offsets 0x0A, 0x32, 0x5A, 0x82, 0xAA, 0xD2, 0xFA, 0x122. Those offsets
tile bytes 0-329 contiguously, so the payload is the concatenation below;
bytes 330 and 331 are written by nothing and stay zero. -/
def encodeWonderCard (d : WonderCardData) : List Nat :=
  [d.eventId &&& 0xFF, (d.eventId >>> 8) &&& 0xFF,
   d.icon &&& 0xFF, (d.icon >>> 8) &&& 0xFF,
   d.count &&& 0xFF, (d.count >>> 8) &&& 0xFF,
   (d.count >>> 16) &&& 0xFF, (d.count >>> 24) &&& 0xFF,
   d.typeColorResend, d.stampMax]
  ++ encodeText d.title 40
  ++ encodeText d.subtitle 40
  ++ encodeText d.contentLine1 40
  ++ encodeText d.contentLine2 40
  ++ encodeText d.contentLine3 40
  ++ encodeText d.contentLine4 40
  ++ encodeText d.warningLine1 40
  ++ encodeText d.warningLine2 40
  ++ [0, 0]

/-! ## Small list-indexing helpers -/

theorem getD_eq_getElem (l : List Nat) (i : Nat) (h : i < l.length) :
    l.getD i 0 = l[i] := by
  simp [List.getD_eq_getElem?_getD, List.getElem?_eq_getElem h]

theorem take_ten (l : List Nat) (h : 10 ≤ l.length) :
    l.take 10 = [l.getD 0 0, l.getD 1 0, l.getD 2 0, l.getD 3 0, l.getD 4 0,
      l.getD 5 0, l.getD 6 0, l.getD 7 0, l.getD 8 0, l.getD 9 0] := by
  apply List.ext_getElem
  · simp; omega
  · intro i h1 h2
    simp only [List.length_take] at h1
    have hi : i < l.length := by omega
    rw [List.getElem_take]
    have h10 : i < 10 := by omega
    interval_cases i <;> simp [List.getElem?_eq_getElem hi]

theorem drop_330_of_length_332 (l : List Nat) (h : l.length = 332) :
    l.drop 330 = [l.getD 330 0, l.getD 331 0] := by
  apply List.ext_getElem
  · simp; omega
  · intro i h1 h2
    simp only [List.length_drop, h] at h1
    rw [List.getElem_drop]
    have h2i : i < 2 := by omega
    have e0 : 330 < l.length := by omega
    have e1 : 331 < l.length := by omega
    interval_cases i <;>
      simp [List.getElem?_eq_getElem e0, List.getElem?_eq_getElem e1]

/-! ## The "plain text byte" class used by the gift-card round-trip claim

A byte is *plain* when it is the zero pad byte or sits in one of the
contiguous digit / punctuation / letter ranges (or is one of the directly
mapped punctuation bytes). Every plain byte decodes to exactly one
character and that character re-encodes to the same byte. -/

def plainByte (b : Nat) : Bool :=
  b == 0 || (0xA1 ≤ b && b ≤ 0xAE) || b == 0xB8 || b == 0xBA ||
  (0xBB ≤ b && b ≤ 0xEE) || b == 0xF0

theorem plainByte_lt_256 {b : Nat} (h : plainByte b = true) : b < 256 := by
  simp only [plainByte, Bool.or_eq_true, Bool.and_eq_true, beq_iff_eq,
    decide_eq_true_eq] at h
  omega

theorem plainByte_roundtrip : ∀ b, b < 256 → plainByte b = true →
    b ≠ 0xFF ∧ gen3ToUnicode b ≠ 0 ∧ unicodeToGen3 (gen3ToUnicode b) = b := by
  decide

theorem decodeTextAux_plain (l : List Nat) (h : ∀ b ∈ l, plainByte b = true) :
    decodeTextAux l = l.map gen3ToUnicode := by
  induction l with
  | nil => rfl
  | cons b rest ih =>
    have hb := h b (List.mem_cons_self b rest)
    obtain ⟨h1, h2, _⟩ := plainByte_roundtrip b (plainByte_lt_256 hb) hb
    simp only [decodeTextAux, if_neg h1, if_pos h2, List.map_cons]
    exact congrArg _ (ih fun x hx => h x (List.mem_cons_of_mem _ hx))

theorem field_roundtrip (l : List Nat) (hlen : l.length = 40)
    (h : ∀ b ∈ l, plainByte b = true) :
    encodeText (decodeText l 40) 40 = l := by
  rw [decodeText, List.take_of_length_le (by omega), decodeTextAux_plain l h,
    encodeText, List.length_map, hlen, List.take_of_length_le (by simp [hlen]),
    List.map_map]
  simp only [Nat.sub_self, List.replicate_zero, List.append_nil]
  have : ∀ b ∈ l, (unicodeToGen3 ∘ gen3ToUnicode) b = id b := by
    intro b hb
    exact (plainByte_roundtrip b (plainByte_lt_256 (h b hb)) (h b hb)).2.2
  rw [List.map_congr_left this, List.map_id]

/-! ## Little-endian byte recombination for the gift-card fields -/

theorem and_255 (X : Nat) : X &&& 0xFF = X % 256 :=
  Nat.and_pow_two_sub_one_eq_mod X 8

theorem and_255_shr (X k : Nat) : (X >>> k) &&& 0xFF = (X / 2 ^ k) % 256 := by
  have e1 : X >>> k = X / 2 ^ k := Nat.shiftRight_eq_div_pow X k
  rw [e1, and_255]

theorem u16_bytes {x y : Nat} (hx : x < 256) (hy : y < 256) :
    (x ||| y <<< 8) &&& 0xFF = x ∧ ((x ||| y <<< 8) >>> 8) &&& 0xFF = y := by
  have h := @lor_shiftLeft_eq_add 8 x y hx
  rw [h, and_255, and_255_shr]
  omega

theorem u32_bytes {a b c d : Nat} (ha : a < 256) (hb : b < 256)
    (hc : c < 256) (hd : d < 256) :
    (a ||| b <<< 8 ||| c <<< 16 ||| d <<< 24) &&& 0xFF = a ∧
    ((a ||| b <<< 8 ||| c <<< 16 ||| d <<< 24) >>> 8) &&& 0xFF = b ∧
    ((a ||| b <<< 8 ||| c <<< 16 ||| d <<< 24) >>> 16) &&& 0xFF = c ∧
    ((a ||| b <<< 8 ||| c <<< 16 ||| d <<< 24) >>> 24) &&& 0xFF = d := by
  have h1 := @lor_shiftLeft_eq_add 8 a b ha
  have h2 := @lor_shiftLeft_eq_add 16 (a ||| b <<< 8) c (by rw [h1]; omega)
  have h3 := @lor_shiftLeft_eq_add 24 (a ||| b <<< 8 ||| c <<< 16) d
    (by rw [h2, h1]; omega)
  rw [h3, h2, h1, and_255, and_255_shr, and_255_shr, and_255_shr]
  omega

/-! ## Claim C5: the CRC16 formula, stated from the specification text -/

/-- The CRC loop as the specification words it: seed `0x1121`; per byte,
the new `crc` is the little-endian 16-bit table entry at index
`(crc XOR byte) AND 0xFF`, XORed with `crc >> 8`; the result is the
bitwise NOT (within 16 bits) of the final value. -/
def crc16ClaimGo (table : List Nat) : List Nat → Nat → Nat
  | [], crc => crc ^^^ 0xFFFF
  | b :: rest, crc =>
    crc16ClaimGo table rest
      ((table.getD (((crc ^^^ b) &&& 0xFF) * 2) 0 |||
        (table.getD (((crc ^^^ b) &&& 0xFF) * 2 + 1) 0 <<< 8)) ^^^ (crc >>> 8))

def crc16Claim (data table : List Nat) : Nat := crc16ClaimGo table data 0x1121

theorem crc16_foldl_eq_claimGo (table : List Nat) :
    ∀ (l : List Nat) (crc : Nat),
      (l.foldl (crc16Step table) crc) ^^^ 0xFFFF = crc16ClaimGo table l crc := by
  intro l
  induction l with
  | nil => intro crc; rfl
  | cons b rest ih =>
    intro crc
    simp only [List.foldl_cons, crc16ClaimGo, crc16Step]
    exact ih _

/-- C5: for every input buffer and 512-byte table, `calculateCRC16` starts
from seed `0x1121`, steps through the table exactly as the specification
describes, and returns the 16-bit complement of the final running value;
in particular on the empty buffer it returns `~0x1121 & 0xFFFF = 0xEEDE`,
whatever the table holds. -/
theorem c5_crc16_formula (data table : List Nat) (ht : table.length = 512) :
    calculateCRC16 data table = crc16Claim data table ∧
    calculateCRC16 [] table = 0xEEDE := by
  have hne : ¬ table.length ≠ 512 := by omega
  constructor
  · rw [calculateCRC16, if_neg hne, crc16Claim]
    exact crc16_foldl_eq_claimGo table data 0x1121
  · rw [calculateCRC16, if_neg hne, List.foldl_nil]
    decide

/-- Witness for C5 at a concrete buffer and table. -/
theorem c5_crc16_formula_witness :
    calculateCRC16 [0x12, 0x34] (List.replicate 512 7) =
      crc16Claim [0x12, 0x34] (List.replicate 512 7) ∧
    calculateCRC16 [] (List.replicate 512 7) = 0xEEDE :=
  c5_crc16_formula [0x12, 0x34] (List.replicate 512 7) (by decide)

/-! ## Claim C7: decoding stabilises after one encode/decode round-trip -/

/-- C7: for every byte value with a text-table entry, one
decode-encode-decode round-trip reaches a fixed point: applying a further
encode/decode round-trip to `decode_text(encode_text(decode_text([b])))`
changes nothing. -/
theorem c7_text_roundtrip_stable :
    ∀ b, b < 256 → gen3ToUnicode b ≠ 0 →
      decodeText (encodeText (decodeText [b] 1) 1) 1 =
      decodeText (encodeText (decodeText (encodeText (decodeText [b] 1) 1) 1) 1) 1 := by
  decide

/-- Witness for C7 at byte `0x43` (the duplicate letter `P` from the
`PKMN` block, whose re-encoding moves to the alphabet position). -/
theorem c7_text_roundtrip_stable_witness :
    decodeText (encodeText (decodeText [0x43] 1) 1) 1 =
    decodeText (encodeText (decodeText (encodeText (decodeText [0x43] 1) 1) 1) 1) 1 :=
  c7_text_roundtrip_stable 0x43 (by decide) (by decide)

/-! ## Claim C9: the two accepted input shapes of `parseWonderCard` -/

/-- C9: a 336-byte input parses identically to its last 332 bytes (the
4-byte CRC+padding header is skipped), and every input shorter than 332
bytes yields — without error — the all-zero record, which satisfies
`isEmpty`. -/
theorem c9_parse_input_shapes (payload : List Nat) :
    (payload.length = 336 →
      parseWonderCard payload = parseWonderCard (payload.drop 4)) ∧
    (payload.length < 332 →
      parseWonderCard payload = emptyWonderCard ∧
      (parseWonderCard payload).eventId = 0 ∧
      (parseWonderCard payload).icon = 0 ∧
      (parseWonderCard payload).count = 0 ∧
      (parseWonderCard payload).typeColorResend = 0 ∧
      (parseWonderCard payload).stampMax = 0 ∧
      (parseWonderCard payload).isEmpty = true) := by
  constructor
  · intro h336
    have hdrop : (payload.drop 4).length = 332 := by simp [h336]
    simp only [parseWonderCard, h336, hdrop]
    norm_num
  · intro hshort
    rw [parseWonderCard, if_pos hshort]
    refine ⟨rfl, rfl, rfl, rfl, rfl, rfl, rfl⟩

/-- Witness for C9 on a concrete 336-byte buffer and a concrete short
buffer (both conjuncts discharged). -/
theorem c9_parse_input_shapes_witness :
    parseWonderCard (List.replicate 336 3) =
      parseWonderCard ((List.replicate 336 3).drop 4) ∧
    (parseWonderCard [1, 2, 3]).isEmpty = true :=
  ⟨(c9_parse_input_shapes (List.replicate 336 3)).1 (by simp),
   ((c9_parse_input_shapes [1, 2, 3]).2 (by simp)).2.2.2.2.2.2⟩

/-! ## Claim C6: the 332-byte gift-card payload round-trip -/

/-- A 332-byte payload whose eight text fields are all zero-padded (empty
representable text) but whose byte 330 — behind the last text field, part
of no field — is nonzero. -/
def nonRoundTripPayload : List Nat := List.replicate 330 0 ++ [1, 0]

/-- Counterexample to C6 as stated: `nonRoundTripPayload` has all eight
text fields consisting of representable text (none) followed by zero-byte
padding, yet encode-after-parse does not reproduce it: bytes 330-331 are
covered by no field, and `encodeWonderCard` always writes them as zero. -/
theorem c6_counterexample :
    (∀ j, 10 ≤ j → j < 330 → plainByte (nonRoundTripPayload.getD j 0) = true) ∧
    nonRoundTripPayload.length = 332 ∧
    (∀ b ∈ nonRoundTripPayload, b < 256) ∧
    encodeWonderCard (parseWonderCard nonRoundTripPayload) ≠ nonRoundTripPayload := by
  refine ⟨by decide, by decide, by decide, by decide⟩

/-- C6 (amended): a 332-byte payload whose eight 40-byte text fields hold
representable text followed by zero-byte padding — every field byte in the
pad/digit/letter/punctuation class `plainByte` — *and whose final two
bytes (offsets 330-331, covered by no field) are zero* is reproduced
exactly by `encodeWonderCard` after `parseWonderCard`: numeric fields are
re-written little-endian at the same offsets and each text field decodes
and re-encodes to the identical 40 bytes. -/
theorem c6_gift_card_roundtrip (p : List Nat) (hlen : p.length = 332)
    (hbytes : ∀ b ∈ p, b < 256)
    (hplain : ∀ j, 10 ≤ j → j < 330 → plainByte (p.getD j 0) = true)
    (h330 : p.getD 330 0 = 0) (h331 : p.getD 331 0 = 0) :
    encodeWonderCard (parseWonderCard p) = p := by
  have hb : ∀ i, i < 332 → p.getD i 0 < 256 := by
    intro i hi
    rw [getD_eq_getElem p i (by omega)]
    exact hbytes _ (List.getElem_mem _)
  have hfield : ∀ off, 10 ≤ off → off + 40 ≤ 330 →
      encodeText (decodeText (p.drop off) 40) 40 = (p.drop off).take 40 := by
    intro off h1 h2
    have hlen40 : ((p.drop off).take 40).length = 40 := by
      simp [hlen]; omega
    have hmem : ∀ b ∈ (p.drop off).take 40, plainByte b = true := by
      intro b hbmem
      rw [List.mem_iff_getElem] at hbmem
      obtain ⟨i, hi, rfl⟩ := hbmem
      rw [hlen40] at hi
      rw [List.getElem_take, List.getElem_drop,
        ← getD_eq_getElem p (off + i) (by omega)]
      exact hplain _ (by omega) (by omega)
    have e : decodeText (p.drop off) 40 = decodeText ((p.drop off).take 40) 40 := by
      rw [decodeText, decodeText, List.take_take]
      norm_num
    rw [e]
    exact field_roundtrip _ hlen40 hmem
  -- unfold the parse (332-byte branch) and the encode
  rw [parseWonderCard, if_neg (by omega)]
  have h336 : ¬ p.length = 336 := by omega
  simp only [h336, if_false, if_neg h336]
  rw [encodeWonderCard]
  simp only
  rw [hfield 10 (by omega) (by omega), hfield 50 (by omega) (by omega),
    hfield 90 (by omega) (by omega), hfield 130 (by omega) (by omega),
    hfield 170 (by omega) (by omega), hfield 210 (by omega) (by omega),
    hfield 250 (by omega) (by omega), hfield 290 (by omega) (by omega)]
  -- numeric header bytes
  obtain ⟨e0, e1⟩ := u16_bytes (hb 0 (by omega)) (hb 1 (by omega))
  obtain ⟨e2, e3⟩ := u16_bytes (hb 2 (by omega)) (hb 3 (by omega))
  obtain ⟨e4, e5, e6, e7⟩ :=
    u32_bytes (hb 4 (by omega)) (hb 5 (by omega)) (hb 6 (by omega)) (hb 7 (by omega))
  rw [e0, e1, e2, e3, e4, e5, e6, e7]
  -- reassemble the payload from its chunks
  conv_rhs => rw [← List.take_append_drop 10 p]
  have chunk : ∀ a : Nat, (p.drop a).take 40 ++ p.drop (a + 40) = p.drop a := by
    intro a
    have h40 : List.drop 40 (List.drop a p) = List.drop (a + 40) p := by
      rw [List.drop_drop]
    rw [← h40, List.take_append_drop]
  conv_rhs =>
    rw [← chunk 10, ← chunk 50, ← chunk 90, ← chunk 130, ← chunk 170,
      ← chunk 210, ← chunk 250, ← chunk 290]
  rw [take_ten p (by omega), drop_330_of_length_332 p hlen, h330, h331]
  simp [List.append_assoc]

/-- Witness for C6 (amended) on a concrete payload with title `"TEST"`. -/
def testRoundTripPayload : List Nat :=
  [1, 0, 2, 0, 3, 0, 0, 0, 5, 6]
  ++ ([0xCE, 0xBF, 0xCD, 0xCE] ++ List.replicate 36 0)
  ++ List.replicate 280 0
  ++ [0, 0]

theorem c6_gift_card_roundtrip_witness :
    encodeWonderCard (parseWonderCard testRoundTripPayload) = testRoundTripPayload :=
  c6_gift_card_roundtrip testRoundTripPayload (by decide) (by decide)
    (by decide) (by decide) (by decide)

/-! ## RomAccessor (`gbaromreader.cpp`)

The ROM buffer `m_romData` is a `List Nat`; offsets are `uint32_t`
values, so bounds guards compute `offset + k` modulo `2 ^ 32` exactly as
the C++ does. A guard that is defeated by that wraparound leads to an
out-of-bounds `operator[]` access, modelled as `none`. -/

/-- `GBAROReader::readByte(offset)` (lines 273-279): zero for any offset at
or past the end (the comparison `offset >= size` cannot wrap). -/
def readByte (rom : List Nat) (offset : Nat) : Nat :=
  if offset ≥ rom.length then 0 else rom.getD offset 0

/-- `GBAROReader::readHalfWord(offset)` (lines 281-290). The guard is
`offset + 1 >= size` in `uint32_t` arithmetic; at `offset = 0xFFFFFFFF`
the sum wraps to 0, the guard passes, and `m_romData[offset]` is an
out-of-bounds access (`none`). -/
def readHalfWord (rom : List Nat) (offset : Nat) : Option Nat :=
  if (offset + 1) % 4294967296 ≥ rom.length then some 0
  else if offset + 1 ≥ 4294967296 then none
  else some (rom.getD offset 0 ||| (rom.getD (offset + 1) 0 <<< 8))

/-- `GBAROReader::readWord(offset)` (lines 292-306), guard
`offset + 3 >= size`; offsets `0xFFFFFFFD..0xFFFFFFFF` wrap the guard and
read out of bounds (`none`). -/
def readWord (rom : List Nat) (offset : Nat) : Option Nat :=
  if (offset + 3) % 4294967296 ≥ rom.length then some 0
  else if offset + 3 ≥ 4294967296 then none
  else some (rom.getD offset 0 ||| (rom.getD (offset + 1) 0 <<< 8)
    ||| (rom.getD (offset + 2) 0 <<< 16) ||| (rom.getD (offset + 3) 0 <<< 24))

/-- `GBAROReader::readBytes(offset, length)` (lines 308-314): empty when
`offset + length > size` in `uint32_t` arithmetic, otherwise
`m_romData.mid(offset, length)`. When `offset + length` wraps past
`2 ^ 32` the guard is defeated and `mid` receives an implementation-
defined converted position; that case is not modelled (`none`). -/
def readBytes (rom : List Nat) (offset length : Nat) : Option (List Nat) :=
  if (offset + length) % 4294967296 > rom.length then some []
  else if offset + length ≥ 4294967296 then none
  else some ((rom.drop offset).take length)

/-- The 3-byte little-endian decompressed size in the LZ77 header at
`offset` (lines 677-679). -/
def lzDeclaredSize (rom : List Nat) (offset : Nat) : Nat :=
  readByte rom (offset + 1) ||| (readByte rom (offset + 2) <<< 8)
    ||| (readByte rom (offset + 3) <<< 16)

/-- The inner copy loop of a compressed block (lines 733-738): copy up to
`r` more bytes, one at a time, from `copyPos + j` in the output produced
so far (so overlapping back-references read bytes appended by earlier
iterations), stopping early once the declared size is reached. -/
def lzCopy (dsz copyPos : Nat) : Nat → Nat → List Nat → List Nat
  | 0, _, out => out
  | r + 1, j, out =>
    if out.length ≥ dsz then out
    else lzCopy dsz copyPos r (j + 1) (out ++ [out.getD (copyPos + j) 0])

/-- The 8-block group loop (lines 702-745). Returns the advanced source
position and output, or `none` on a truncated stream / invalid
displacement. `flags` is a `uint8_t`, hence the `% 256` after the shift. -/
def lzBlocks (rom : List Nat) (dsz : Nat) :
    Nat → Nat → Nat → List Nat → Option (Nat × List Nat)
  | 0, _, srcPos, out => some (srcPos, out)
  | i + 1, flags, srcPos, out =>
    if out.length ≥ dsz then some (srcPos, out)
    else if srcPos ≥ rom.length then none
    else if flags &&& 0x80 ≠ 0 then
      if srcPos + 1 ≥ rom.length then none
      else
        let b1 := rom.getD srcPos 0
        let b2 := rom.getD (srcPos + 1) 0
        let len := ((b1 >>> 4) &&& 0x0F) + 3
        let disp := (((b1 &&& 0x0F) <<< 8) ||| b2) + 1
        if out.length < disp then none
        else lzBlocks rom dsz i ((flags <<< 1) % 256) (srcPos + 2)
          (lzCopy dsz (out.length - disp) len 0 out)
    else lzBlocks rom dsz i ((flags <<< 1) % 256) (srcPos + 1)
      (out ++ [rom.getD srcPos 0])

/-- The outer `while (decompressed.size() < decompressedSize)` loop
(lines 692-746). The fuel argument is a modelling artifact: every
productive iteration appends at least one byte, so `dsz` iterations always
suffice and the fuel never runs out on a stream the C++ loop finishes. -/
def lzOuter (rom : List Nat) (dsz : Nat) : Nat → Nat → List Nat → Option (List Nat)
  | fuel, srcPos, out =>
    if out.length ≥ dsz then some out
    else match fuel with
      | 0 => none
      | fuel + 1 =>
        if srcPos ≥ rom.length then none
        else match lzBlocks rom dsz 8 (rom.getD srcPos 0) (srcPos + 1) out with
          | none => none
          | some (sp, out2) => lzOuter rom dsz fuel sp out2

/-- `GBAROReader::decompressLZ77(offset)` (lines 661-749). `none` is every
`errorMessage`-and-empty-return path. For `offset ≥ 2^32 - 4` the header
guard wraps, but `readByte(offset)` then yields 0 ≠ 0x10 and the type
check fails, so `srcPos = offset + 4` is only reached without wrap. -/
def decompressLZ77 (rom : List Nat) (offset : Nat) : Option (List Nat) :=
  if (offset + 4) % 4294967296 > rom.length then none
  else if readByte rom offset ≠ 0x10 then none
  else if lzDeclaredSize rom offset = 0 ∨ lzDeclaredSize rom offset > 0x100000 then none
  else lzOuter rom (lzDeclaredSize rom offset) (lzDeclaredSize rom offset) (offset + 4) []

/-! ## Claim C4: the LZ77 decompressor -/

theorem lzCopy_length_le (dsz copyPos : Nat) :
    ∀ (r j : Nat) (out : List Nat), out.length ≤ dsz →
      (lzCopy dsz copyPos r j out).length ≤ dsz := by
  intro r
  induction r with
  | zero => intro j out h; exact h
  | succ r ih =>
    intro j out h
    rw [lzCopy]
    by_cases hd : out.length ≥ dsz
    · rw [if_pos hd]; exact h
    · rw [if_neg hd]
      exact ih _ _ (by simp; omega)

theorem lzBlocks_length_le (rom : List Nat) (dsz : Nat) :
    ∀ (i flags srcPos : Nat) (out : List Nat) (sp : Nat) (out2 : List Nat),
      out.length ≤ dsz → lzBlocks rom dsz i flags srcPos out = some (sp, out2) →
      out2.length ≤ dsz := by
  intro i
  induction i with
  | zero =>
    intro flags srcPos out sp out2 h heq
    rw [lzBlocks] at heq
    cases heq
    exact h
  | succ i ih =>
    intro flags srcPos out sp out2 h heq
    simp only [lzBlocks] at heq
    split_ifs at heq with h1 h2 h3 h4 h5
    · cases heq; exact h
    · exact ih _ _ _ _ _ (lzCopy_length_le _ _ _ _ _ h) heq
    · exact ih _ _ _ _ _ (by simp; omega) heq

theorem lzOuter_some_length (rom : List Nat) (dsz : Nat) :
    ∀ (fuel srcPos : Nat) (out res : List Nat),
      out.length ≤ dsz → lzOuter rom dsz fuel srcPos out = some res →
      res.length = dsz := by
  intro fuel
  induction fuel with
  | zero =>
    intro srcPos out res h heq
    rw [lzOuter] at heq
    split_ifs at heq with h1
    cases heq
    omega
  | succ fuel ih =>
    intro srcPos out res h heq
    rw [lzOuter] at heq
    split_ifs at heq with h1 h2
    · cases heq; omega
    · rcases hb : lzBlocks rom dsz 8 (rom.getD srcPos 0) (srcPos + 1) out with _ | ⟨sp, out2⟩
      · rw [hb] at heq; cases heq
      · rw [hb] at heq
        exact ih _ _ _ (lzBlocks_length_le rom dsz _ _ _ _ _ _ h hb) heq

/-- C4: whenever `decompressLZ77` returns a byte vector, the header byte
was `0x10`, the 3-byte little-endian declared length was neither 0 nor
over 1 MiB, and the returned vector's length equals the declared length
exactly — so every well-formed stream (one on which no error path fires),
including streams with overlapping back-references, decompresses to
exactly the declared length, and the function errors unless the header
conditions hold. -/
theorem c4_lz77_decompress (rom : List Nat) (offset : Nat) (res : List Nat)
    (h : decompressLZ77 rom offset = some res) :
    readByte rom offset = 0x10 ∧ lzDeclaredSize rom offset ≠ 0 ∧
    lzDeclaredSize rom offset ≤ 0x100000 ∧
    res.length = lzDeclaredSize rom offset := by
  rw [decompressLZ77] at h
  split_ifs at h with h1 h2 h3
  push_neg at h2 h3
  exact ⟨h2, h3.1, h3.2, lzOuter_some_length rom _ _ _ _ _ (by simp) h⟩

/-- Witness for C4 on a stream whose back-reference (displacement 1,
length 5) overlaps the write cursor: one literal `A` followed by the
self-referential copy yields exactly the declared 6 bytes. -/
theorem c4_lz77_decompress_witness :
    decompressLZ77 [0x10, 6, 0, 0, 0x40, 0x41, 0x20, 0x00] 0 =
      some [65, 65, 65, 65, 65, 65] ∧
    readByte [0x10, 6, 0, 0, 0x40, 0x41, 0x20, 0x00] 0 = 0x10 ∧
    lzDeclaredSize [0x10, 6, 0, 0, 0x40, 0x41, 0x20, 0x00] 0 ≠ 0 ∧
    lzDeclaredSize [0x10, 6, 0, 0, 0x40, 0x41, 0x20, 0x00] 0 ≤ 0x100000 ∧
    ([65, 65, 65, 65, 65, 65] : List Nat).length =
      lzDeclaredSize [0x10, 6, 0, 0, 0x40, 0x41, 0x20, 0x00] 0 :=
  ⟨by decide,
   c4_lz77_decompress [0x10, 6, 0, 0, 0x40, 0x41, 0x20, 0x00] 0
     [65, 65, 65, 65, 65, 65] (by decide)⟩

/-! ## Claim C8: bounds-tolerant primitive reads -/

/-- Counterexample to C8 as stated: at `offset = 0xFFFFFFFF` (past the end
of a 1-byte ROM) `readHalfWord` does not return zero — `offset + 1` wraps
to 0 in `uint32_t`, the guard `offset + 1 >= size` passes, and
`m_romData[offset]` is read out of bounds. -/
theorem c8_counterexample :
    4294967295 ≥ ([5] : List Nat).length ∧
    readHalfWord [5] 4294967295 ≠ some 0 := by
  constructor
  · decide
  · rw [readHalfWord]
    decide

/-- C8 (amended): the primitive reads return zero (and `read_bytes` the
empty array) for any access at or past the buffer end, *provided the end
offset of the access does not wrap modulo `2 ^ 32`* (`offset + 1 < 2^32`
for 16-bit, `offset + 3 < 2^32` for 32-bit, `offset + len < 2^32` for
`read_bytes`); at the handful of wrapping offsets the guards are defeated
and an out-of-bounds access occurs instead. -/
theorem c8_reads_tolerant (rom : List Nat) (offset len : Nat) :
    (offset ≥ rom.length → readByte rom offset = 0) ∧
    (offset + 1 < 4294967296 → offset + 1 ≥ rom.length →
      readHalfWord rom offset = some 0) ∧
    (offset + 3 < 4294967296 → offset + 3 ≥ rom.length →
      readWord rom offset = some 0) ∧
    (offset + len < 4294967296 → offset + len > rom.length →
      readBytes rom offset len = some []) := by
  refine ⟨?_, ?_, ?_, ?_⟩
  · intro h
    rw [readByte, if_pos h]
  · intro h1 h2
    rw [readHalfWord, if_pos (by rw [Nat.mod_eq_of_lt h1]; exact h2)]
  · intro h1 h2
    rw [readWord, if_pos (by rw [Nat.mod_eq_of_lt h1]; exact h2)]
  · intro h1 h2
    rw [readBytes, if_pos (by rw [Nat.mod_eq_of_lt h1]; exact h2)]

/-- Witness for C8 (amended) on a 1-byte ROM at offset 5. -/
theorem c8_reads_tolerant_witness :
    readByte [7] 5 = 0 ∧ readHalfWord [7] 5 = some 0 ∧
    readWord [7] 5 = some 0 ∧ readBytes [7] 5 3 = some [] :=
  ⟨(c8_reads_tolerant [7] 5 3).1 (by decide),
   (c8_reads_tolerant [7] 5 3).2.1 (by decide) (by decide),
   (c8_reads_tolerant [7] 5 3).2.2.1 (by decide) (by decide),
   (c8_reads_tolerant [7] 5 3).2.2.2 (by decide) (by decide)⟩

/-! ## SaveContainer (`src/core/savefile.cpp`)

The save buffer is read and mutated through `uint8_t*` pointers, so it is
modelled as a function `Nat → Nat` plus the loaded size. The class state
relevant to the modelled operations is `m_bytes`, `m_detectedGame` and
`m_activeSaveSlot`. Constants from `savefile.h`:
`SECTION_SIZE = 0x1000`, `SECTIONS_PER_SAVE = 14` (so one slot spans
`0xE000 = 57344` bytes), `SECTION_ID_OFFSET = 0xFF4`,
`CHECKSUM_OFFSET = 0xFF6`, `SAVE_INDEX_OFFSET = 0xFFC`,
`GAME_CODE_OFFSET = 0xAC`, `CHECKSUM_DATA_LENGTH_DEFAULT = 0xF80`. -/

inductive GameType where
  | Unknown
  | FireRedLeafGreen
  | RubySapphire
  | Emerald
deriving DecidableEq, Repr

structure SaveFile where
  bytes : Nat → Nat
  size : Nat
  detectedGame : GameType
  activeSaveSlot : Int

/-- `SaveFile::isLoaded()` (savefile.h line 93). -/
def isLoaded (s : SaveFile) : Bool := s.size != 0

/-- A little-endian 16-bit read `p[off] | (p[off+1] << 8)`. -/
def readU16 (f : Nat → Nat) (off : Nat) : Nat :=
  f off ||| (f (off + 1) <<< 8)

/-- A little-endian 32-bit read. -/
def readU32 (f : Nat → Nat) (off : Nat) : Nat :=
  f off ||| (f (off + 1) <<< 8) ||| (f (off + 2) <<< 16) ||| (f (off + 3) <<< 24)

/-- The little-endian 32-bit word number `i` of a section
(`SaveFile::computeSectionChecksum` lines 132-138); the `uint32_t`
assignment truncates modulo `2 ^ 32`. -/
def word32 (data : Nat → Nat) (i : Nat) : Nat :=
  (data (4 * i) ||| (data (4 * i + 1) <<< 8) ||| (data (4 * i + 2) <<< 16)
    ||| (data (4 * i + 3) <<< 24)) % 4294967296

/-- The running `sum += word` over the first `n` words, in `uint32_t`. -/
def wordSum (data : Nat → Nat) : Nat → Nat
  | 0 => 0
  | n + 1 => (wordSum data n + word32 data n) % 4294967296

/-- `SaveFile::computeSectionChecksum(data, length)` (lines 126-144):
sum `length / 4` little-endian words, fold the high 16 bits into the low
16 bits once, return the low 16 bits. -/
def computeSectionChecksum (data : Nat → Nat) (length : Nat) : Nat :=
  ((wordSum data (length / 4) &&& 0xFFFF) + (wordSum data (length / 4) >>> 16)) &&& 0xFFFF

/-- `SaveBlockInfo` (savefile.h lines 61-67). -/
structure SaveBlockInfo where
  blockIndex : Nat
  saveIndex : Nat
  valid : Bool
  gameCode : Nat
  hasSecurityKey : Bool
deriving Repr, DecidableEq

/-- One iteration of the section loop in `SaveFile::analyzeSaveSlot`
(lines 159-202): the checksum of every section is computed over the
*default* length `0xF80`, the save index is captured from physical
section 0, and the game code from the section whose id is 0. -/
def analyzeStep (bytes : Nat → Nat) (base : Nat) (info : SaveBlockInfo)
    (sec : Nat) : SaveBlockInfo :=
  let off := base + sec * 0x1000
  let computed := computeSectionChecksum (fun i => bytes (off + i)) 0xF80
  let stored := readU16 bytes (off + 0xFF6)
  let info1 := if computed ≠ stored then { info with valid := false } else info
  let sectionId := readU16 bytes (off + 0xFF4)
  let saveIdx := readU32 bytes (off + 0xFFC)
  let info2 := if sec = 0 then { info1 with saveIndex := saveIdx } else info1
  if sectionId = 0 then
    { info2 with
      gameCode := readU32 bytes (off + 0xAC)
      hasSecurityKey := readU32 bytes (off + 0xB0) != 0 }
  else info2

/-- `SaveFile::analyzeSaveSlot(slotIndex)` (lines 146-205). -/
def analyzeSaveSlot (s : SaveFile) (slotIndex : Nat) : SaveBlockInfo :=
  (List.range 14).foldl (analyzeStep s.bytes (slotIndex * 57344))
    ⟨slotIndex, 0, true, 0, false⟩

/-- `SaveFile::findActiveSaveSlot()` (lines 207-222). -/
def findActiveSaveSlot (s : SaveFile) : Int :=
  if isLoaded s = false then -1
  else
    let slot0 := analyzeSaveSlot s 0
    let slot1 := analyzeSaveSlot s 1
    if slot0.valid && !slot1.valid then 0
    else if !slot0.valid && slot1.valid then 1
    else if slot0.saveIndex > slot1.saveIndex then 0 else 1

/-- `SaveFile::findWonderCardBlock()` (lines 284-304): the first of the 14
physical sections of the active slot whose *single-byte* section id equals
the marker `0x04`; `none` is the `-1` return. -/
def findWonderCardBlock (s : SaveFile) : Option Nat :=
  if isLoaded s = false ∨ s.activeSaveSlot < 0 then none
  else (List.range 14).find? fun pos =>
    s.bytes (s.activeSaveSlot.toNat * 57344 + pos * 0x1000 + 0xFF4) == 0x04

/-- The search loop of `SaveFile::findSection(sectionId)` (lines 612-633):
first physical position whose 16-bit section id matches. -/
def sectionSearch (s : SaveFile) (sectionId : Nat) : Option Nat :=
  if isLoaded s = false ∨ s.activeSaveSlot < 0 then none
  else (List.range 14).find? fun pos =>
    readU16 s.bytes (s.activeSaveSlot.toNat * 57344 + pos * 0x1000 + 0xFF4) == sectionId

/-- `SaveFile::findSection(sectionId)` with its `int` result convention. -/
def findSection (s : SaveFile) (sectionId : Nat) : Int :=
  match sectionSearch s sectionId with
  | some pos => (pos : Int)
  | none => -1

/-- `SaveFile::getSection4ChecksumLength()` (lines 635-643). -/
def getSection4ChecksumLength (g : GameType) : Nat :=
  if g = GameType.Emerald then 0xF08 else 0xEE8

/-- `SaveFile::getSectionChecksumLength(sectionId)` (lines 645-669). -/
def getSectionChecksumLength (g : GameType) (sectionId : Nat) : Nat :=
  if sectionId = 4 then getSection4ChecksumLength g
  else if sectionId = 0 then
    if g = GameType.Emerald then 0xF2C
    else if g = GameType.FireRedLeafGreen then 0xF24
    else 0x890
  else if sectionId = 13 then 0x7D0
  else 0xF80

/-- `MYSTERY_GIFT_OFFSET_EMERALD / _FRLG` (savefile.h lines 182-184),
selected as in `enableMysteryGift` lines 746-752. -/
def mysteryGiftFlagOffset (g : GameType) : Nat :=
  if g = GameType.Emerald then 0x40B else 0x067

/-- `MYSTERY_GIFT_BIT_EMERALD / _FRLG` (savefile.h lines 183-185). -/
def mysteryGiftFlagBit (g : GameType) : Nat :=
  if g = GameType.Emerald then 0x08 else 0x02

/-- `InjectionOptions` (savefile.h lines 70-75). -/
structure InjectionOptions where
  clearMetadata : Bool
  clearTrainerIds : Bool
  clearMysteryGiftFlags : Bool
  clearMysteryGiftVars : Bool

/-- `SaveFile::injectWonderCard` (lines 466-610). `none` is every
`return false` path; on success the returned state carries the mutated
buffer. Offsets: Wonder Card `0x56C`/`0x460`, script `0x8A8`/`0x79C`,
metadata `0x6C0`/`0x5B4`, trainer ids `0x868`/`0x75C`
(Emerald / FireRed-LeafGreen). -/
def injectWonderCard (s : SaveFile) (wonderCard : WonderCardData)
    (scriptData crcTable rawWonderCardData : List Nat)
    (options : InjectionOptions) : Option SaveFile :=
  if isLoaded s = false then none
  else if s.detectedGame = GameType.Unknown then none
  else if s.detectedGame = GameType.RubySapphire then none
  else match findWonderCardBlock s with
  | none => none
  | some wonderCardBlock =>
    let wonderCardOffset := if s.detectedGame = GameType.Emerald then 0x56C else 0x460
    let scriptOffset := if s.detectedGame = GameType.Emerald then 0x8A8 else 0x79C
    let metadataOffset := if s.detectedGame = GameType.Emerald then 0x6C0 else 0x5B4
    let trainerIdsOffset := if s.detectedGame = GameType.Emerald then 0x868 else 0x75C
    let blockOffset := s.activeSaveSlot.toNat * 57344 + wonderCardBlock * 0x1000
    let b1 :=
      if options.clearMetadata then
        writeConst (writeConst s.bytes (blockOffset + metadataOffset) 0 32)
          (blockOffset + metadataOffset - 4) 0 4
      else s.bytes
    let b2 :=
      if options.clearTrainerIds then
        writeConst b1 (blockOffset + trainerIdsOffset) 0 40
      else b1
    let wonderCardPayload :=
      if rawWonderCardData ≠ [] then
        if rawWonderCardData.length = 336 then (rawWonderCardData.drop 4).take 332
        else if rawWonderCardData.length = 332 then rawWonderCardData
        else encodeWonderCard wonderCard
      else encodeWonderCard wonderCard
    let wonderCardCRC := calculateCRC16 wonderCardPayload crcTable
    let b3 := updateByte (updateByte (updateByte (updateByte b2
        (blockOffset + wonderCardOffset) (wonderCardCRC &&& 0xFF))
        (blockOffset + wonderCardOffset + 1) ((wonderCardCRC >>> 8) &&& 0xFF))
        (blockOffset + wonderCardOffset + 2) 0)
        (blockOffset + wonderCardOffset + 3) 0
    let b4 := writeList b3 (blockOffset + wonderCardOffset + 4) wonderCardPayload
    let scriptPayload :=
      if scriptData.length = 1004 then (scriptData.drop 4).take 1000
      else if scriptData.length = 1000 then scriptData
      else []
    let b5 :=
      if scriptPayload.length = 1000 then
        let scriptToWrite :=
          if scriptPayload.getD 0 0 ≠ 51 then scriptPayload.set 0 51 else scriptPayload
        let scriptCRC := calculateCRC16 scriptToWrite crcTable
        writeList (updateByte (updateByte (updateByte (updateByte b4
          (blockOffset + scriptOffset) (scriptCRC &&& 0xFF))
          (blockOffset + scriptOffset + 1) ((scriptCRC >>> 8) &&& 0xFF))
          (blockOffset + scriptOffset + 2) 0)
          (blockOffset + scriptOffset + 3) 0)
          (blockOffset + scriptOffset + 4) scriptToWrite
      else b4
    let iconSpecies := wonderCardPayload.getD 2 0 ||| (wonderCardPayload.getD 3 0 <<< 8)
    let b6 := updateByte (updateByte b5
        (blockOffset + metadataOffset + 6) (iconSpecies &&& 0xFF))
        (blockOffset + metadataOffset + 7) ((iconSpecies >>> 8) &&& 0xFF)
    let blockChecksum :=
      computeSectionChecksum (fun i => b6 (blockOffset + i))
        (getSection4ChecksumLength s.detectedGame)
    let b7 := updateByte (updateByte b6
        (blockOffset + 0xFF6) (blockChecksum &&& 0xFF))
        (blockOffset + 0xFF7) ((blockChecksum >>> 8) &&& 0xFF)
    some { s with bytes := b7 }

/-- `SaveFile::enableMysteryGift()` (lines 711-773). `none` is every
`return false` path; when the game-specific flag bit is already set the
buffer is returned untouched, otherwise the bit is OR-ed in and the
section 2 checksum (over `getSectionChecksumLength(2)` bytes) is
recomputed and stored. -/
def enableMysteryGift (s : SaveFile) : Option SaveFile :=
  if isLoaded s = false then none
  else if s.detectedGame = GameType.Unknown then none
  else if s.detectedGame = GameType.RubySapphire then none
  else match sectionSearch s 2 with
  | none => none
  | some section2Pos =>
    let section2Offset := s.activeSaveSlot.toNat * 57344 + section2Pos * 0x1000
    let flagOffset := mysteryGiftFlagOffset s.detectedGame
    let flagBit := mysteryGiftFlagBit s.detectedGame
    let currentValue := s.bytes (section2Offset + flagOffset)
    if currentValue &&& flagBit ≠ 0 then some s
    else
      let b1 := updateByte s.bytes (section2Offset + flagOffset) (currentValue ||| flagBit)
      let newChecksum :=
        computeSectionChecksum (fun i => b1 (section2Offset + i))
          (getSectionChecksumLength s.detectedGame 2)
      let b2 := updateByte (updateByte b1
          (section2Offset + 0xFF6) (newChecksum &&& 0xFF))
          (section2Offset + 0xFF7) ((newChecksum >>> 8) &&& 0xFF)
      some { s with bytes := b2 }

/-! ## Checksum computation lemmas -/

theorem wordSum_succ (data : Nat → Nat) (n : Nat) :
    wordSum data (n + 1) = (wordSum data n + word32 data n) % 4294967296 := rfl

theorem wordSum_zero (data : Nat → Nat) :
    ∀ n, (∀ i, i < 4 * n → data i = 0) → wordSum data n = 0 := by
  intro n
  induction n with
  | zero => intro _; rfl
  | succ n ih =>
    intro h
    rw [wordSum_succ, ih fun i hi => h i (by omega), word32,
      h (4 * n) (by omega), h (4 * n + 1) (by omega),
      h (4 * n + 2) (by omega), h (4 * n + 3) (by omega)]
    decide

theorem wordSum_congr {f g : Nat → Nat} :
    ∀ n, (∀ i, i < 4 * n → f i = g i) → wordSum f n = wordSum g n := by
  intro n
  induction n with
  | zero => intro _; rfl
  | succ n ih =>
    intro h
    rw [wordSum_succ, wordSum_succ, ih fun i hi => h i (by omega), word32, word32,
      h (4 * n) (by omega), h (4 * n + 1) (by omega),
      h (4 * n + 2) (by omega), h (4 * n + 3) (by omega)]

theorem computeSectionChecksum_congr {f g : Nat → Nat} {len : Nat}
    (h : ∀ i, i < len → f i = g i) :
    computeSectionChecksum f len = computeSectionChecksum g len := by
  rw [computeSectionChecksum, computeSectionChecksum,
    wordSum_congr (len / 4) fun i hi => h i (by omega)]

theorem computeSectionChecksum_lt (data : Nat → Nat) (len : Nat) :
    computeSectionChecksum data len < 65536 := by
  rw [computeSectionChecksum]
  have e := Nat.and_pow_two_sub_one_eq_mod
    ((wordSum data (len / 4) &&& 0xFFFF) + (wordSum data (len / 4) >>> 16)) 16
  rw [e]
  omega

/-- The checksum recompute-and-store tail shared by `injectWonderCard` and
`enableMysteryGift`: after the two little-endian checksum bytes are stored
at `bo + 0xFF6`, reading the stored checksum back gives exactly the
checksum of the final buffer over the same `len` bytes (the two stores lie
beyond every checksummed byte). -/
theorem sectionChecksumWrite (B : Nat → Nat) (bo len : Nat) (hlen : len < 0xFF6) :
    readU16
      (updateByte
        (updateByte B (bo + 0xFF6)
          (computeSectionChecksum (fun i => B (bo + i)) len &&& 0xFF))
        (bo + 0xFF7)
        (computeSectionChecksum (fun i => B (bo + i)) len >>> 8 &&& 0xFF))
      (bo + 0xFF6)
    = computeSectionChecksum
        (fun i =>
          updateByte
            (updateByte B (bo + 0xFF6)
              (computeSectionChecksum (fun i => B (bo + i)) len &&& 0xFF))
            (bo + 0xFF7)
            (computeSectionChecksum (fun i => B (bo + i)) len >>> 8 &&& 0xFF)
            (bo + i))
        len := by
  have hck := computeSectionChecksum_lt (fun i => B (bo + i)) len
  have hrhs :
      computeSectionChecksum
        (fun i =>
          updateByte
            (updateByte B (bo + 0xFF6)
              (computeSectionChecksum (fun i => B (bo + i)) len &&& 0xFF))
            (bo + 0xFF7)
            (computeSectionChecksum (fun i => B (bo + i)) len >>> 8 &&& 0xFF)
            (bo + i))
        len
      = computeSectionChecksum (fun i => B (bo + i)) len := by
    apply computeSectionChecksum_congr
    intro i hi
    rw [updateByte_ne (by omega), updateByte_ne (by omega)]
  rw [hrhs, readU16]
  have h1 : bo + 0xFF6 + 1 = bo + 0xFF7 := by omega
  rw [h1, updateByte_eq, updateByte_ne (by omega), updateByte_eq]
  exact byte_recombine_16 hck

/-! ## Slot-validity characterisation of `analyzeSaveSlot` -/

theorem analyzeStep_valid (bytes : Nat → Nat) (base : Nat) (info : SaveBlockInfo)
    (sec : Nat) :
    (analyzeStep bytes base info sec).valid =
      (info.valid &&
        (computeSectionChecksum (fun i => bytes (base + sec * 0x1000 + i)) 0xF80
          == readU16 bytes (base + sec * 0x1000 + 0xFF6))) := by
  simp only [analyzeStep]
  split_ifs with h1 h2 h3 h4 h5 h6 <;>
    simp_all [beq_iff_eq]

theorem analyzeSections_valid (bytes : Nat → Nat) (base : Nat) :
    ∀ (l : List Nat) (info : SaveBlockInfo),
      ((l.foldl (analyzeStep bytes base) info).valid) =
        (info.valid && l.all fun sec =>
          computeSectionChecksum (fun i => bytes (base + sec * 0x1000 + i)) 0xF80
            == readU16 bytes (base + sec * 0x1000 + 0xFF6)) := by
  intro l
  induction l with
  | nil => intro info; simp
  | cons a t ih =>
    intro info
    rw [List.foldl_cons, ih, analyzeStep_valid, List.all_cons, Bool.and_assoc]

theorem analyzeSaveSlot_valid_iff (s : SaveFile) (slot : Nat) :
    (analyzeSaveSlot s slot).valid = true ↔
      ∀ sec, sec < 14 →
        computeSectionChecksum
            (fun i => s.bytes (slot * 57344 + sec * 0x1000 + i)) 0xF80
          = readU16 s.bytes (slot * 57344 + sec * 0x1000 + 0xFF6) := by
  rw [analyzeSaveSlot, analyzeSections_valid]
  simp [List.all_eq_true, List.mem_range, beq_iff_eq]

/-! ## Claim C1: active-slot selection -/

/-- C1: `findActiveSaveSlot` prefers the slot whose 14 section checksums
all validate over a slot with any mismatch, regardless of the save
counters; when both slots validate equally (both valid or both invalid),
it selects the slot with the strictly higher save counter. -/
theorem c1_active_slot_selection (s : SaveFile) (hsize : s.size = 131072) :
    ((analyzeSaveSlot s 0).valid = true → (analyzeSaveSlot s 1).valid = false →
      findActiveSaveSlot s = 0) ∧
    ((analyzeSaveSlot s 0).valid = false → (analyzeSaveSlot s 1).valid = true →
      findActiveSaveSlot s = 1) ∧
    ((analyzeSaveSlot s 0).valid = (analyzeSaveSlot s 1).valid →
      ((analyzeSaveSlot s 0).saveIndex > (analyzeSaveSlot s 1).saveIndex →
        findActiveSaveSlot s = 0) ∧
      ((analyzeSaveSlot s 1).saveIndex > (analyzeSaveSlot s 0).saveIndex →
        findActiveSaveSlot s = 1)) := by
  have hload : isLoaded s = true := by simp [isLoaded, hsize]
  refine ⟨?_, ?_, ?_⟩
  · intro h0 h1
    simp [findActiveSaveSlot, hload, h0, h1]
  · intro h0 h1
    simp [findActiveSaveSlot, hload, h0, h1]
  · intro hv
    constructor
    · intro hgt
      by_cases hb1 : (analyzeSaveSlot s 1).valid = true
      · have hb0 : (analyzeSaveSlot s 0).valid = true := hv.trans hb1
        simp [findActiveSaveSlot, hload, hb0, hb1, hgt]
      · simp only [Bool.not_eq_true] at hb1
        have hb0 : (analyzeSaveSlot s 0).valid = false := hv.trans hb1
        simp [findActiveSaveSlot, hload, hb0, hb1, hgt]
    · intro hgt
      have hle : ¬ ((analyzeSaveSlot s 0).saveIndex > (analyzeSaveSlot s 1).saveIndex) := by
        omega
      by_cases hb1 : (analyzeSaveSlot s 1).valid = true
      · have hb0 : (analyzeSaveSlot s 0).valid = true := hv.trans hb1
        simp [findActiveSaveSlot, hload, hb0, hb1, hle]
      · simp only [Bool.not_eq_true] at hb1
        have hb0 : (analyzeSaveSlot s 0).valid = false := hv.trans hb1
        simp [findActiveSaveSlot, hload, hb0, hb1, hle]

/-- The all-zero loaded save buffer. -/
def zeroSave : SaveFile := ⟨fun _ => 0, 131072, GameType.Unknown, -1⟩

/-- Witness for C1 at the all-zero save buffer. -/
theorem c1_active_slot_selection_witness :
    ((analyzeSaveSlot zeroSave 0).valid = true →
      (analyzeSaveSlot zeroSave 1).valid = false → findActiveSaveSlot zeroSave = 0) ∧
    ((analyzeSaveSlot zeroSave 0).valid = false →
      (analyzeSaveSlot zeroSave 1).valid = true → findActiveSaveSlot zeroSave = 1) ∧
    ((analyzeSaveSlot zeroSave 0).valid = (analyzeSaveSlot zeroSave 1).valid →
      ((analyzeSaveSlot zeroSave 0).saveIndex > (analyzeSaveSlot zeroSave 1).saveIndex →
        findActiveSaveSlot zeroSave = 0) ∧
      ((analyzeSaveSlot zeroSave 1).saveIndex > (analyzeSaveSlot zeroSave 0).saveIndex →
        findActiveSaveSlot zeroSave = 1)) :=
  c1_active_slot_selection zeroSave rfl

/-! ## Claim C2: what slot validation actually checksums -/

/-- The per-section, per-game-variant validation rule as the specification
words it (named after the claim, for comparison with the code): a slot is
valid exactly when every section's stored checksum matches the checksum
computed over that section's own expected data length, the length being
chosen by the section id in the section's footer. -/
def claimPerSectionValid (s : SaveFile) (slot : Nat) (g : GameType) : Prop :=
  ∀ sec, sec < 14 →
    computeSectionChecksum
        (fun i => s.bytes (slot * 57344 + sec * 0x1000 + i))
        (getSectionChecksumLength g
          (readU16 s.bytes (slot * 57344 + sec * 0x1000 + 0xFF4)))
      = readU16 s.bytes (slot * 57344 + sec * 0x1000 + 0xFF6)

/-- A loaded save whose only nonzero byte sits at offset `0xF7C = 3964` of
slot 0's physical section 0 — inside the default checksum range `0xF80`
but beyond section 0's Emerald-specific length `0xF2C`. -/
def c2Save : SaveFile := ⟨fun i => if i = 3964 then 1 else 0, 131072, GameType.Unknown, -1⟩

theorem c2Save_bytes_ne {x : Nat} (hx : x ≠ 3964) : c2Save.bytes x = 0 := by
  simp [c2Save, hx]

/-- Counterexample to C2 as stated: on `c2Save`, slot 0 satisfies the
claimed per-section, per-game-variant validation rule (for the Emerald
family), yet `analyzeSaveSlot` — which checksums every section over the
default length `0xF80` regardless of section id or game — marks the slot
invalid. -/
theorem c2_counterexample :
    claimPerSectionValid c2Save 0 GameType.Emerald ∧
    (analyzeSaveSlot c2Save 0).valid = false := by
  constructor
  · intro sec hsec
    have hid : readU16 c2Save.bytes (0 * 57344 + sec * 0x1000 + 0xFF4) = 0 := by
      rw [readU16, c2Save_bytes_ne (by omega), c2Save_bytes_ne (by omega)]
      decide
    have hstored : readU16 c2Save.bytes (0 * 57344 + sec * 0x1000 + 0xFF6) = 0 := by
      rw [readU16, c2Save_bytes_ne (by omega), c2Save_bytes_ne (by omega)]
      decide
    rw [hid, hstored]
    have hlen : getSectionChecksumLength GameType.Emerald 0 = 0xF2C := by decide
    rw [hlen, computeSectionChecksum,
      wordSum_zero _ (0xF2C / 4) fun i hi => c2Save_bytes_ne (by omega)]
    decide
  · rcases hv : (analyzeSaveSlot c2Save 0).valid with _ | _
    · rfl
    · exfalso
      have h0 := (analyzeSaveSlot_valid_iff c2Save 0).mp hv 0 (by omega)
      have hstored : readU16 c2Save.bytes (0 * 57344 + 0 * 0x1000 + 0xFF6) = 0 := by
        rw [readU16, c2Save_bytes_ne (by omega), c2Save_bytes_ne (by omega)]
        decide
      have hsum :
          wordSum (fun i => c2Save.bytes (0 * 57344 + 0 * 0x1000 + i)) (0xF80 / 4) = 1 := by
        have h992 : (0xF80 / 4 : Nat) = 991 + 1 := by decide
        rw [h992, wordSum_succ,
          wordSum_zero _ 991 fun i hi => c2Save_bytes_ne (by omega), word32]
        have e1 : c2Save.bytes (0 * 57344 + 0 * 0x1000 + (4 * 991)) = 1 := by
          simp [c2Save]
        have e2 : c2Save.bytes (0 * 57344 + 0 * 0x1000 + (4 * 991 + 1)) = 0 :=
          c2Save_bytes_ne (by omega)
        have e3 : c2Save.bytes (0 * 57344 + 0 * 0x1000 + (4 * 991 + 2)) = 0 :=
          c2Save_bytes_ne (by omega)
        have e4 : c2Save.bytes (0 * 57344 + 0 * 0x1000 + (4 * 991 + 3)) = 0 :=
          c2Save_bytes_ne (by omega)
        rw [e1, e2, e3, e4]
        decide
      rw [computeSectionChecksum, hsum, hstored] at h0
      exact absurd h0 (by decide)

/-- C2 (amended): during active-slot detection every one of the 14
sections of a slot is checksum-validated against the *default* data
length `0xF80` — not a per-section, per-game-variant length (the game
variant is not even known yet at detection time) — and a slot counts as
valid exactly when every section's stored checksum matches the
word-sum-and-fold checksum computed over those `0xF80` bytes. -/
theorem c2_slot_validation_default_length (s : SaveFile) (slot : Nat) :
    (analyzeSaveSlot s slot).valid = true ↔
      ∀ sec, sec < 14 →
        computeSectionChecksum
            (fun i => s.bytes (slot * 57344 + sec * 0x1000 + i)) 0xF80
          = readU16 s.bytes (slot * 57344 + sec * 0x1000 + 0xFF6) :=
  analyzeSaveSlot_valid_iff s slot

/-- Witness for C2 (amended) at the all-zero save buffer, slot 0. -/
theorem c2_slot_validation_default_length_witness :
    (analyzeSaveSlot zeroSave 0).valid = true ↔
      ∀ sec, sec < 14 →
        computeSectionChecksum
            (fun i => zeroSave.bytes (0 * 57344 + sec * 0x1000 + i)) 0xF80
          = readU16 zeroSave.bytes (0 * 57344 + sec * 0x1000 + 0xFF6) :=
  c2_slot_validation_default_length zeroSave 0

/-! ## Claim C3: checksum recompute is the final store of each mutation -/

/-- C3: both mutating operations succeed under their preconditions and,
in the buffer they return, the mutated section's stored checksum (read
back little-endian from its footer) equals the checksum of that section's
final bytes computed over the mutated logical section's own length rule —
`getSection4ChecksumLength` for the gift-card section written by
`injectWonderCard`, `getSectionChecksumLength 2` for the flag section
written by `enableMysteryGift`. The checksum store is the last write, so
nothing written afterwards can invalidate it. -/
theorem c3_checksum_recompute_last (s : SaveFile) (wonderCard : WonderCardData)
    (scriptData crcTable rawWonderCardData : List Nat) (options : InjectionOptions)
    (hload : isLoaded s = true)
    (hg : s.detectedGame = GameType.FireRedLeafGreen ∨ s.detectedGame = GameType.Emerald)
    (wb : Nat) (hwb : findWonderCardBlock s = some wb)
    (pos2 : Nat) (hp2 : sectionSearch s 2 = some pos2)
    (hflag : s.bytes (s.activeSaveSlot.toNat * 57344 + pos2 * 0x1000 +
        mysteryGiftFlagOffset s.detectedGame) &&& mysteryGiftFlagBit s.detectedGame = 0) :
    (∃ s1, injectWonderCard s wonderCard scriptData crcTable rawWonderCardData options
        = some s1 ∧
      readU16 s1.bytes (s.activeSaveSlot.toNat * 57344 + wb * 0x1000 + 0xFF6) =
        computeSectionChecksum
          (fun i => s1.bytes (s.activeSaveSlot.toNat * 57344 + wb * 0x1000 + i))
          (getSection4ChecksumLength s.detectedGame)) ∧
    (∃ s2, enableMysteryGift s = some s2 ∧
      readU16 s2.bytes (s.activeSaveSlot.toNat * 57344 + pos2 * 0x1000 + 0xFF6) =
        computeSectionChecksum
          (fun i => s2.bytes (s.activeSaveSlot.toNat * 57344 + pos2 * 0x1000 + i))
          (getSectionChecksumLength s.detectedGame 2)) := by
  have hg1 : ¬ s.detectedGame = GameType.Unknown := by
    rcases hg with h | h <;> simp [h]
  have hg2 : ¬ s.detectedGame = GameType.RubySapphire := by
    rcases hg with h | h <;> simp [h]
  have hlen4 : getSection4ChecksumLength s.detectedGame < 0xFF6 := by
    rcases hg with h | h <;> simp [getSection4ChecksumLength, h]
  have hlen2 : getSectionChecksumLength s.detectedGame 2 < 0xFF6 := by
    rcases hg with h | h <;> simp [getSectionChecksumLength, getSection4ChecksumLength, h]
  constructor
  · simp only [injectWonderCard, hload, hwb, hg1, hg2, if_false, Bool.true_eq_false]
    exact ⟨_, rfl, sectionChecksumWrite _ _ _ hlen4⟩
  · simp only [enableMysteryGift, hload, hp2, hg1, hg2, if_false, Bool.true_eq_false,
      hflag, ne_eq, not_true_eq_false, not_false_eq_true]
    exact ⟨_, rfl, sectionChecksumWrite _ _ _ hlen2⟩

/-- A loaded FireRed/LeafGreen save (active slot 0) whose physical
section 0 carries the gift-card marker id 4 and whose physical section 1
carries section id 2, everything else zero. -/
def flagSave : SaveFile :=
  ⟨fun i => if i = 0xFF4 then 4 else if i = 0x1FF4 then 2 else 0,
   131072, GameType.FireRedLeafGreen, 0⟩

/-- Witness for C3 on `flagSave` with concrete injection arguments. -/
theorem c3_checksum_recompute_last_witness :
    (∃ s1, injectWonderCard flagSave emptyWonderCard [] [] []
        ⟨true, false, false, false⟩ = some s1 ∧
      readU16 s1.bytes (flagSave.activeSaveSlot.toNat * 57344 + 0 * 0x1000 + 0xFF6) =
        computeSectionChecksum
          (fun i => s1.bytes (flagSave.activeSaveSlot.toNat * 57344 + 0 * 0x1000 + i))
          (getSection4ChecksumLength flagSave.detectedGame)) ∧
    (∃ s2, enableMysteryGift flagSave = some s2 ∧
      readU16 s2.bytes (flagSave.activeSaveSlot.toNat * 57344 + 1 * 0x1000 + 0xFF6) =
        computeSectionChecksum
          (fun i => s2.bytes (flagSave.activeSaveSlot.toNat * 57344 + 1 * 0x1000 + i))
          (getSectionChecksumLength flagSave.detectedGame 2)) :=
  c3_checksum_recompute_last flagSave emptyWonderCard [] [] []
    ⟨true, false, false, false⟩ (by decide) (Or.inl rfl) 0 (by decide)
    1 (by decide) (by decide)

/-! ## Claim C10: `enableMysteryGift` is idempotent and frame-preserving -/

theorem or_two_pow_ne {x : Nat} (k : Nat) (h : x &&& 2 ^ k = 0) :
    x ||| 2 ^ k ≠ x := by
  intro he
  have hbit : (x ||| 2 ^ k).testBit k = true := by
    rw [Nat.testBit_or, Nat.testBit_two_pow_self]
    simp
  have hx : x.testBit k = false := by
    have := congrArg (fun y => y.testBit k) h
    simpa [Nat.testBit_and, Nat.testBit_two_pow_self] using this
  rw [he, hx] at hbit
  cases hbit

/-- C10: when the game-variant Mystery Gift bit is already set,
`enableMysteryGift` succeeds and returns the buffer byte-for-byte
unchanged (no checksum recompute happens); otherwise it succeeds and
writes exactly the flag byte (OR-ing the flag bit in, which changes that
byte) and the two little-endian checksum bytes of section 2's footer,
leaving every other byte of the save buffer untouched. -/
theorem c10_enable_idempotent_frame (s : SaveFile)
    (hload : isLoaded s = true)
    (hg : s.detectedGame = GameType.FireRedLeafGreen ∨ s.detectedGame = GameType.Emerald)
    (pos2 : Nat) (hp2 : sectionSearch s 2 = some pos2) :
    ((s.bytes (s.activeSaveSlot.toNat * 57344 + pos2 * 0x1000 +
        mysteryGiftFlagOffset s.detectedGame) &&& mysteryGiftFlagBit s.detectedGame ≠ 0) →
      enableMysteryGift s = some s) ∧
    ((s.bytes (s.activeSaveSlot.toNat * 57344 + pos2 * 0x1000 +
        mysteryGiftFlagOffset s.detectedGame) &&& mysteryGiftFlagBit s.detectedGame = 0) →
      ∃ b2 : Nat → Nat, enableMysteryGift s = some { s with bytes := b2 } ∧
        b2 (s.activeSaveSlot.toNat * 57344 + pos2 * 0x1000 +
            mysteryGiftFlagOffset s.detectedGame) =
          (s.bytes (s.activeSaveSlot.toNat * 57344 + pos2 * 0x1000 +
            mysteryGiftFlagOffset s.detectedGame) ||| mysteryGiftFlagBit s.detectedGame) ∧
        b2 (s.activeSaveSlot.toNat * 57344 + pos2 * 0x1000 +
            mysteryGiftFlagOffset s.detectedGame) ≠
          s.bytes (s.activeSaveSlot.toNat * 57344 + pos2 * 0x1000 +
            mysteryGiftFlagOffset s.detectedGame) ∧
        (∀ j, j ≠ s.activeSaveSlot.toNat * 57344 + pos2 * 0x1000 +
              mysteryGiftFlagOffset s.detectedGame →
          j ≠ s.activeSaveSlot.toNat * 57344 + pos2 * 0x1000 + 0xFF6 →
          j ≠ s.activeSaveSlot.toNat * 57344 + pos2 * 0x1000 + 0xFF7 →
          b2 j = s.bytes j)) := by
  have hg1 : ¬ s.detectedGame = GameType.Unknown := by
    rcases hg with h | h <;> simp [h]
  have hg2 : ¬ s.detectedGame = GameType.RubySapphire := by
    rcases hg with h | h <;> simp [h]
  have hoff : mysteryGiftFlagOffset s.detectedGame < 0xFF6 := by
    rcases hg with h | h <;> simp [mysteryGiftFlagOffset, h]
  constructor
  · intro hset
    simp only [enableMysteryGift, hload, hp2, hg1, hg2, if_false, Bool.true_eq_false]
    rw [if_pos hset]
  · intro hclr
    simp only [enableMysteryGift, hload, hp2, hg1, hg2, if_false, Bool.true_eq_false,
      hclr, ne_eq, not_true_eq_false, not_false_eq_true]
    refine ⟨_, rfl, ?_, ?_, ?_⟩
    · rw [updateByte_ne (by omega), updateByte_ne (by omega), updateByte_eq]
    · rw [updateByte_ne (by omega), updateByte_ne (by omega), updateByte_eq]
      rcases hg with h | h
      · rw [h] at hclr ⊢
        have h2 : (2 : Nat) = 2 ^ 1 := by decide
        simp only [mysteryGiftFlagBit, reduceIte, reduceCtorEq] at hclr ⊢
        rw [h2] at hclr ⊢
        exact or_two_pow_ne 1 hclr
      · rw [h] at hclr ⊢
        have h8 : (8 : Nat) = 2 ^ 3 := by decide
        simp only [mysteryGiftFlagBit, reduceIte] at hclr ⊢
        rw [h8] at hclr ⊢
        exact or_two_pow_ne 3 hclr
    · intro j hj1 hj2 hj3
      rw [updateByte_ne hj3, updateByte_ne hj2, updateByte_ne hj1]

/-- Witness for C10 on `flagSave` (flag initially clear, so the mutating
branch of the theorem is exercised). -/
theorem c10_enable_idempotent_frame_witness :
    ∃ b2 : Nat → Nat, enableMysteryGift flagSave = some { flagSave with bytes := b2 } ∧
      b2 (flagSave.activeSaveSlot.toNat * 57344 + 1 * 0x1000 +
          mysteryGiftFlagOffset flagSave.detectedGame) =
        (flagSave.bytes (flagSave.activeSaveSlot.toNat * 57344 + 1 * 0x1000 +
          mysteryGiftFlagOffset flagSave.detectedGame) |||
            mysteryGiftFlagBit flagSave.detectedGame) ∧
      b2 (flagSave.activeSaveSlot.toNat * 57344 + 1 * 0x1000 +
          mysteryGiftFlagOffset flagSave.detectedGame) ≠
        flagSave.bytes (flagSave.activeSaveSlot.toNat * 57344 + 1 * 0x1000 +
          mysteryGiftFlagOffset flagSave.detectedGame) ∧
      (∀ j, j ≠ flagSave.activeSaveSlot.toNat * 57344 + 1 * 0x1000 +
            mysteryGiftFlagOffset flagSave.detectedGame →
        j ≠ flagSave.activeSaveSlot.toNat * 57344 + 1 * 0x1000 + 0xFF6 →
        j ≠ flagSave.activeSaveSlot.toNat * 57344 + 1 * 0x1000 + 0xFF7 →
        b2 j = flagSave.bytes j) :=
  (c10_enable_idempotent_frame flagSave (by decide) (Or.inl rfl) 1 (by decide)).2
    (by decide)

end MGI
